import Mathlib

/-!
Shallow embedding of the shiki monaco bridge (src/packages/monaco/src/index.ts).

JS strings are modelled as Lean String (lists of characters), JS undefined
through Option, the mutable Map through an association list that is only
extended when the key is absent, and runtime type errors (reading a field of
undefined, iterating undefined) through Except.  Observable side effects of
the bridge (delegating to the host setTheme, calling the highlighting engine
setTheme, invoking the grammar interpreter tokenizeLine2, building the
color-to-scope map, emitting the console warning) are recorded in an event
trace, and object identity of TokenizerState instances is modelled by an
explicit objId allocated fresh at each construction.
-/

namespace ShikiMonaco

/-- Model of the JS expression color.replace(String.fromCharCode(35), empty):
removes the first occurrence of the marker character, wherever it occurs. -/
def replaceFirstHash : List Char → List Char
  | [] => []
  | c :: cs => if c = '#' then cs else c :: replaceFirstHash cs

/-- Model of split-map-join duplication of each character. -/
def dupChars : List Char → List Char
  | [] => []
  | c :: cs => c :: c :: dupChars cs

/-- Short-form expansion (src lines 171-172): duplicate each character when
3 or 4 remain. -/
def expand34 (cs : List Char) : List Char :=
  if cs.length = 3 ∨ cs.length = 4 then dupChars cs else cs

/-- normalizeColor on a present string (src lines 166-174): falsy (empty)
input is returned unchanged; otherwise remove the first marker occurrence,
lowercase, and expand the short form. -/
def normalizeColorStr (color : String) : String :=
  if color = "" then color
  else String.mk (expand34 ((replaceFirstHash color.data).map Char.toLower))

/-- normalizeColor including the absent (undefined) case. -/
def normalizeColor : Option String → Option String
  | none => none
  | some s => some (normalizeColorStr s)

/-- A monaco theme rule: token (scope name) and optional foreground color. -/
structure MonacoRule where
  token : String
  foreground : Option String
deriving DecidableEq, Repr

/-- The scope field of a textmate theme setting entry: absent, a single
string, or an array of strings. -/
inductive ScopeField
  | absent
  | single (s : String)
  | multi (l : List String)
deriving DecidableEq, Repr

/-- One textmate theme settings entry; foreground stands for the settings
record field settings.foreground. -/
structure ThemeSetting where
  scope : ScopeField
  foreground : Option String
deriving DecidableEq, Repr

/-- Source-form theme (ThemeRegistrationResolved as consumed by the bridge). -/
structure SourceTheme where
  rules : Option (List MonacoRule)
  settings : Option (List ThemeSetting)
  tokenColors : Option (List ThemeSetting)
  colors : Option (List (String × String))
  type : String
deriving DecidableEq, Repr

/-- Host-form (monaco) theme. -/
structure MonacoTheme where
  base : String
  inherit : Bool
  colors : List (String × String)
  rules : List MonacoRule
deriving DecidableEq, Repr

/-- The JS expression (Array.isArray(scope) ? scope : [scope]) wraps a
non-array scope in a one-element array; an absent scope becomes [undefined]. -/
def scopeList : ScopeField → List (Option String)
  | .absent => [none]
  | .single s => [some s]
  | .multi l => l.map some

/-- Rules contributed by one settings entry (src lines 23-32): for each scope
in the entry, a rule is pushed only when both the foreground and the scope
are truthy (present and non-empty). -/
def rulesOfSetting (e : ThemeSetting) : List MonacoRule :=
  (scopeList e.scope).filterMap fun s =>
    match e.foreground, s with
    | some fg, some sc =>
        if fg ≠ "" ∧ sc ≠ "" then some ⟨sc, some (normalizeColorStr fg)⟩ else none
    | _, _ => none

/-- Rules built from a whole settings list, in order. -/
def settingsToRules : List ThemeSetting → List MonacoRule
  | [] => []
  | e :: es => rulesOfSetting e ++ settingsToRules es

/-- Conversion of the named color table (src lines 36-39): each value is
normalized and prefixed with the marker. -/
def convertColors (colors : Option (List (String × String))) : List (String × String) :=
  (colors.getD []).map fun kv => (kv.1, "#" ++ normalizeColorStr kv.2)

/-- The JS expression (theme.settings or-else theme.tokenColors); an empty
present list is truthy and therefore chosen. -/
def pickSettings (t : SourceTheme) : Option (List ThemeSetting) :=
  match t.settings with
  | some l => some l
  | none => t.tokenColors

/-- textmateThemeToMonacoTheme (src lines 15-47).  When the theme carries no
rules field and neither settings nor tokenColors, the JS for-of loop over
undefined throws a TypeError, modelled as Except.error. -/
def textmateThemeToMonacoTheme (t : SourceTheme) : Except String MonacoTheme :=
  match t.rules with
  | some rs =>
      Except.ok { base := if t.type = "light" then "vs" else "vs-dark", inherit := false,
                  colors := convertColors t.colors, rules := rs }
  | none =>
      match pickSettings t with
      | none => Except.error "TypeError: themeSettings is not iterable"
      | some l =>
          Except.ok { base := if t.type = "light" then "vs" else "vs-dark", inherit := false,
                      colors := convertColors t.colors, rules := settingsToRules l }

/-- The per-line carry-over state (src lines 137-161).  objId models JS
reference identity (a fresh id at each construction), ruleStack the identity
of the opaque grammar stack handle, highlighterId the identity of the shared
highlighter reference. -/
structure TokenizerState where
  objId : Nat
  ruleStack : Nat
  highlighterId : Nat
deriving DecidableEq, Repr

/-- clone (src lines 147-149): a new object wrapping the same stack handle
and highlighter reference; freshId is the identity of the new object. -/
def TokenizerState.clone (s : TokenizerState) (freshId : Nat) : TokenizerState :=
  { objId := freshId, ruleStack := s.ruleStack, highlighterId := s.highlighterId }

/-- equals (src lines 151-160), with this = s and the argument other = t:
false when other is not the very same object or its stack handle differs,
true otherwise.  The null and instanceof guards of the source are absorbed
by restricting other to TokenizerState. -/
def TokenizerState.equals (s t : TokenizerState) : Bool :=
  if t.objId ≠ s.objId ∨ t.ruleStack ≠ s.ruleStack then false else true

/-- Result of the grammar interpreter tokenizeLine2: interleaved
start-offset and metadata values, the new stack handle, and the early-stop
flag. -/
structure GrammarResult where
  tokens : List Nat
  ruleStack : Nat
  stoppedEarly : Bool
deriving DecidableEq, Repr

/-- The highlighting engine collaborator, as consumed by the bridge:
setTheme returns the color map of the requested theme, and the per-language
grammar provides tokenizeLine2 (line, stack handle, time limit). -/
structure Highlighter where
  colorMapOf : String → List String
  tokenizeLine2 : String → Nat → Nat → GrammarResult

/-- Observable side effects of the bridge, in order of occurrence. -/
inductive Event
  | hostSetTheme (id : String)
  | recordTheme (id : String)
  | engineSetTheme (id : String)
  | invokeTokenizeLine2 (line : String)
  | buildIndex (id : String)
  | warnTimeLimit (lineHead : String)
deriving DecidableEq, Repr

/-- Foreground bits of the token metadata, per the external vscode-textmate
StackElementMetadata encoding: mask bits 15 to 23 of the 32-bit value and
shift right by 15. -/
def getForeground (metadata : Nat) : Nat :=
  metadata % 2 ^ 32 / 2 ^ 15 % 2 ^ 9

def tokenizeMaxLineLength : Nat := 20000

def tokenizeTimeLimit : Nat := 500

/-- The empty initial stack handle constant of the grammar interpreter. -/
def INITIAL : Nat := 0

/-- getInitialState (src lines 76-78). -/
def getInitialState (freshId highlighterId : Nat) : TokenizerState :=
  { objId := freshId, ruleStack := INITIAL, highlighterId := highlighterId }

/-- The body of the forEach of src lines 102-106: record the token under the
normalized color only when the color is truthy and not yet a key. -/
def insertIfAbsent : Option String → String → List (String × String) → List (String × String)
  | none, _, m => m
  | some c, tok, m => if c ≠ "" ∧ List.lookup c m = none then m ++ [(c, tok)] else m

/-- The color-to-scope map construction (src lines 100-106): walk the rules
in order, inserting absent truthy keys.  The Map is an association list. -/
def buildColorToScopeMap : List MonacoRule → List (String × String) → List (String × String)
  | [], m => m
  | r :: rs, m => buildColorToScopeMap rs (insertIfAbsent (normalizeColor r.foreground) r.token m)

/-- findScopeByColor (src lines 108-110): plain map lookup. -/
def findScopeByColor (m : List (String × String)) (color : String) : Option String :=
  List.lookup color m

/-- An emitted host-shaped token. -/
structure Token where
  startIndex : Nat
  scopes : String
deriving DecidableEq, Repr

/-- Result of one tokenize call. -/
structure TokenizeResult where
  endState : TokenizerState
  tokens : List Token
deriving DecidableEq, Repr

/-- The token emission loop (src lines 112-125): for each start-offset and
metadata pair, the metadata foreground indexes the color map (out of range
yields the empty string), the color is normalized, and the scope resolved
through the map or defaulted to empty.  A trailing offset without metadata
reads metadata as undefined, which the bitmask turns into 0. -/
def emitTokens (colorMap : List String) (m : List (String × String)) : List Nat → List Token
  | [] => []
  | [startIndex] =>
      [⟨startIndex,
        (findScopeByColor m (normalizeColorStr (colorMap.getD (getForeground 0) ""))).getD ""⟩]
  | startIndex :: metadata :: rest =>
      ⟨startIndex,
        (findScopeByColor m (normalizeColorStr (colorMap.getD (getForeground metadata) ""))).getD ""⟩
        :: emitTokens colorMap m rest

/-- The mutable closure state of shikiToMonaco visible to tokenize: the
registered host-form themes and the tracked current theme identifier. -/
structure BridgeState where
  themeMap : List (String × MonacoTheme)
  currentTheme : String
deriving DecidableEq, Repr

/-- The intercepted monaco setTheme (src lines 67-71): first delegate to the
underlying host entry point, then record the identifier.  Returns the
updated bridge state and the ordered event trace. -/
def setThemeWrapped (theme : String) (bs : BridgeState) : BridgeState × List Event :=
  ({ bs with currentTheme := theme }, [Event.hostSetTheme theme, Event.recordTheme theme])

/-- tokenize (src lines 79-131).  Returns the call result (Except models the
TypeError thrown at theme!.rules when the current theme is unregistered),
the active theme of the shared engine after the call, and the event trace.
freshId is the identity of the newly constructed end state. -/
def tokenize (bs : BridgeState) (hl : Highlighter) (engineTheme : String)
    (freshId : Nat) (line : String) (state : TokenizerState) :
    Except String TokenizeResult × String × List Event :=
  if tokenizeMaxLineLength ≤ line.length then
    (Except.ok { endState := state, tokens := [{ startIndex := 0, scopes := "" }] },
     engineTheme, [])
  else
    let colorMap := hl.colorMapOf bs.currentTheme
    let themeOpt := List.lookup bs.currentTheme bs.themeMap
    let result := hl.tokenizeLine2 line state.ruleStack tokenizeTimeLimit
    let ev := [Event.engineSetTheme bs.currentTheme, Event.invokeTokenizeLine2 line]
    let ev := if result.stoppedEarly then ev ++ [Event.warnTimeLimit (line.take 100)] else ev
    match themeOpt with
    | none => (Except.error "TypeError: theme is undefined", bs.currentTheme, ev)
    | some theme =>
        let m := buildColorToScopeMap theme.rules []
        (Except.ok { endState := { objId := freshId, ruleStack := result.ruleStack,
                                   highlighterId := state.highlighterId },
                     tokens := emitTokens colorMap m result.tokens },
         bs.currentTheme, ev ++ [Event.buildIndex bs.currentTheme])

/-- Success test for the Except results of the bridge. -/
def isOkB {α : Type} : Except String α → Bool
  | Except.ok _ => true
  | Except.error _ => false

end ShikiMonaco

namespace ShikiMonaco

/-! Concrete fixtures used by witnesses and counterexamples. -/

def theme0 : MonacoTheme :=
  { base := "vs-dark", inherit := false, colors := [],
    rules := [⟨"comment", some "00ff00"⟩] }

def themeDark : MonacoTheme :=
  { base := "vs-dark", inherit := false, colors := [],
    rules := [⟨"keyword", some "ff0000"⟩] }

def bs0 : BridgeState :=
  { themeMap := [("t", theme0), ("dark", themeDark)], currentTheme := "t" }

def hl0 : Highlighter :=
  { colorMapOf := fun _ => ["000000", "ff0000"],
    tokenizeLine2 := fun _ stack _ =>
      { tokens := [0, 32768], ruleStack := stack + 1, stoppedEarly := false } }

def hlStop : Highlighter :=
  { colorMapOf := fun _ => ["000000", "ff0000"],
    tokenizeLine2 := fun _ stack _ =>
      { tokens := [0, 32768], ruleStack := stack + 1, stoppedEarly := true } }

def st0 : TokenizerState := ⟨0, 0, 0⟩

def longLine : String := String.mk (List.replicate 20000 'x')

/-- Unfolding of tokenize on a line below the ceiling. -/
theorem tokenize_short_eq (bs : BridgeState) (hl : Highlighter) (engineTheme : String)
    (freshId : Nat) (line : String) (state : TokenizerState)
    (hlen : ¬ tokenizeMaxLineLength ≤ line.length) :
    tokenize bs hl engineTheme freshId line state =
      (let result := hl.tokenizeLine2 line state.ruleStack tokenizeTimeLimit
       let ev := [Event.engineSetTheme bs.currentTheme, Event.invokeTokenizeLine2 line]
       let ev := if result.stoppedEarly then ev ++ [Event.warnTimeLimit (line.take 100)] else ev
       match List.lookup bs.currentTheme bs.themeMap with
       | none => (Except.error "TypeError: theme is undefined", bs.currentTheme, ev)
       | some theme =>
           (Except.ok { endState := { objId := freshId, ruleStack := result.ruleStack,
                                      highlighterId := state.highlighterId },
                        tokens := emitTokens (hl.colorMapOf bs.currentTheme)
                                    (buildColorToScopeMap theme.rules []) result.tokens },
            bs.currentTheme, ev ++ [Event.buildIndex bs.currentTheme])) := by
  unfold tokenize
  rw [if_neg hlen]

/-- C1: for a line at or above the 20000 ceiling, tokenize returns exactly
one token with start index 0 and empty scope, the input state object itself
as end state, an unchanged engine theme and an empty event trace (so the
grammar interpreter tokenizeLine2 is never invoked); the result does not
depend on the grammar interpreter at all. -/
theorem tokenize_long_line_guard (bs : BridgeState) (hl : Highlighter) (engineTheme : String)
    (freshId : Nat) (line : String) (state : TokenizerState)
    (h : tokenizeMaxLineLength ≤ line.length) :
    tokenize bs hl engineTheme freshId line state =
      (Except.ok { endState := state, tokens := [{ startIndex := 0, scopes := "" }] },
       engineTheme, []) ∧
    ∀ hl2 : Highlighter,
      tokenize bs hl2 engineTheme freshId line state =
        tokenize bs hl engineTheme freshId line state := by
  refine ⟨?_, ?_⟩
  · unfold tokenize
    rw [if_pos h]
  · intro hl2
    unfold tokenize
    rw [if_pos h, if_pos h]

theorem tokenize_long_line_guard_witness :
    tokenize bs0 hl0 "t" 1 longLine st0 =
      (Except.ok { endState := st0, tokens := [{ startIndex := 0, scopes := "" }] },
       "t", []) :=
  (tokenize_long_line_guard bs0 hl0 "t" 1 longLine st0 (by
      show tokenizeMaxLineLength ≤ (List.replicate 20000 'x').length
      rw [List.length_replicate]
      decide)).1

/-- C8: under injective identity allocation, equals holds exactly when the
other state is the very same object carrying the same stack handle; two
structurally identical but distinct objects are never equal, so equality is
reference identity with stack-handle identity, not structural equality. -/
theorem tokenizerState_equals_iff (s t : TokenizerState)
    (hinj : t.objId = s.objId → t = s) :
    (TokenizerState.equals s t = true ↔ t = s ∧ t.ruleStack = s.ruleStack) ∧
    TokenizerState.equals ⟨0, 5, 7⟩ ⟨1, 5, 7⟩ = false := by
  refine ⟨?_, by decide⟩
  have hbool : TokenizerState.equals s t = true ↔
      (t.objId = s.objId ∧ t.ruleStack = s.ruleStack) := by
    unfold TokenizerState.equals
    by_cases hc : t.objId ≠ s.objId ∨ t.ruleStack ≠ s.ruleStack
    · rw [if_pos hc]
      simp only [Bool.false_eq_true, false_iff]
      tauto
    · rw [if_neg hc]
      push_neg at hc
      simp [hc.1, hc.2]
  rw [hbool]
  constructor
  · rintro ⟨h1, h2⟩
    exact ⟨hinj h1, h2⟩
  · rintro ⟨h1, h2⟩
    subst h1
    exact ⟨rfl, h2⟩

theorem tokenizerState_equals_iff_witness :
    (TokenizerState.equals ⟨2, 3, 4⟩ ⟨2, 3, 4⟩ = true ↔
      (⟨2, 3, 4⟩ : TokenizerState) = ⟨2, 3, 4⟩ ∧
      (⟨2, 3, 4⟩ : TokenizerState).ruleStack = (⟨2, 3, 4⟩ : TokenizerState).ruleStack) ∧
    TokenizerState.equals ⟨0, 5, 7⟩ ⟨1, 5, 7⟩ = false :=
  tokenizerState_equals_iff ⟨2, 3, 4⟩ ⟨2, 3, 4⟩ (fun _ => rfl)

/-- C9: a clone is a distinct object wrapping the same stack handle and the
same highlighter reference, and a clone is never equal to its original. -/
theorem tokenizerState_clone_spec (s : TokenizerState) (freshId : Nat)
    (hfresh : freshId ≠ s.objId) :
    (s.clone freshId).ruleStack = s.ruleStack ∧
    (s.clone freshId).highlighterId = s.highlighterId ∧
    s.clone freshId ≠ s ∧
    TokenizerState.equals (s.clone freshId) s = false := by
  refine ⟨rfl, rfl, ?_, ?_⟩
  · intro h
    exact hfresh (congrArg TokenizerState.objId h)
  · unfold TokenizerState.equals TokenizerState.clone
    rw [if_pos]
    exact Or.inl (Ne.symm hfresh)

theorem tokenizerState_clone_spec_witness :
    (TokenizerState.clone ⟨0, 5, 7⟩ 1).ruleStack = (⟨0, 5, 7⟩ : TokenizerState).ruleStack ∧
    (TokenizerState.clone ⟨0, 5, 7⟩ 1).highlighterId =
      (⟨0, 5, 7⟩ : TokenizerState).highlighterId ∧
    TokenizerState.clone ⟨0, 5, 7⟩ 1 ≠ ⟨0, 5, 7⟩ ∧
    TokenizerState.equals (TokenizerState.clone ⟨0, 5, 7⟩ 1) ⟨0, 5, 7⟩ = false :=
  tokenizerState_clone_spec ⟨0, 5, 7⟩ 1 (by decide)

/-- C10: every tokenize call on a line below the length ceiling calls the
engine setTheme with the currently recorded theme identifier and leaves the
shared engine active theme equal to it, also when the engine theme already
was the current one. -/
theorem tokenize_always_sets_engine_theme (bs : BridgeState) (hl : Highlighter)
    (engineTheme : String) (freshId : Nat) (line : String) (state : TokenizerState)
    (hlen : ¬ tokenizeMaxLineLength ≤ line.length) :
    Event.engineSetTheme bs.currentTheme ∈
      (tokenize bs hl engineTheme freshId line state).2.2 ∧
    (tokenize bs hl engineTheme freshId line state).2.1 = bs.currentTheme := by
  rw [tokenize_short_eq bs hl engineTheme freshId line state hlen]
  cases hthm : List.lookup bs.currentTheme bs.themeMap with
  | none =>
      cases hstop : (hl.tokenizeLine2 line state.ruleStack tokenizeTimeLimit).stoppedEarly <;>
        simp [hstop]
  | some theme =>
      cases hstop : (hl.tokenizeLine2 line state.ruleStack tokenizeTimeLimit).stoppedEarly <;>
        simp [hstop]

theorem tokenize_always_sets_engine_theme_witness :
    Event.engineSetTheme bs0.currentTheme ∈ (tokenize bs0 hl0 "t" 1 "x" st0).2.2 ∧
    (tokenize bs0 hl0 "t" 1 "x" st0).2.1 = bs0.currentTheme :=
  tokenize_always_sets_engine_theme bs0 hl0 "t" 1 "x" st0 (by decide)

end ShikiMonaco

namespace ShikiMonaco

/-! Association list lemmas for the color-to-scope map. -/

theorem lookup_append (c : String) (m1 m2 : List (String × String)) :
    List.lookup c (m1 ++ m2) =
      match List.lookup c m1 with
      | some v => some v
      | none => List.lookup c m2 := by
  induction m1 with
  | nil => simp
  | cons kv m1 ih =>
      by_cases h : c = kv.1
      · simp [List.lookup, h]
      · have hb : (c == kv.1) = false := beq_false_of_ne h
        simp [List.lookup, hb, ih]

/-- The scope of the first rule whose normalized foreground equals the given
color: the characterization of first-match-wins. -/
def firstTokenWithColor : List MonacoRule → String → Option String
  | [], _ => none
  | r :: rs, c =>
      if normalizeColor r.foreground = some c then some r.token else firstTokenWithColor rs c

theorem buildColorToScopeMap_lookup (rules : List MonacoRule) (m : List (String × String))
    (c : String) (hc : c ≠ "") :
    List.lookup c (buildColorToScopeMap rules m) =
      match List.lookup c m with
      | some v => some v
      | none => firstTokenWithColor rules c := by
  induction rules generalizing m with
  | nil =>
      cases h : List.lookup c m <;>
        simp [buildColorToScopeMap, firstTokenWithColor, h]
  | cons r rs ih =>
      rw [show buildColorToScopeMap (r :: rs) m =
            buildColorToScopeMap rs (insertIfAbsent (normalizeColor r.foreground) r.token m)
          from rfl]
      rw [ih (insertIfAbsent (normalizeColor r.foreground) r.token m)]
      cases hn : normalizeColor r.foreground with
      | none =>
          simp only [insertIfAbsent]
          cases hm : List.lookup c m <;> simp [firstTokenWithColor, hn, hm]
      | some c2 =>
          simp only [insertIfAbsent]
          by_cases hcc : c2 = c
          · subst hcc
            cases hm : List.lookup c2 m with
            | none =>
                rw [if_pos ⟨hc, rfl⟩, lookup_append, hm]
                have h1 : List.lookup c2 [(c2, r.token)] = some r.token := by
                  simp [List.lookup]
                simp [h1, firstTokenWithColor, hn]
            | some v =>
                rw [if_neg (by simp), hm]
          · have h0 : List.lookup c [(c2, r.token)] = none := by
              simp [List.lookup, beq_false_of_ne (fun h : c = c2 => hcc h.symm)]
            have hne : List.lookup c (m ++ [(c2, r.token)]) = List.lookup c m := by
              rw [lookup_append]
              cases hm : List.lookup c m <;> simp [h0]
            by_cases hcond : c2 ≠ "" ∧ List.lookup c2 m = none
            · rw [if_pos hcond, hne]
              cases hm : List.lookup c m <;> simp [firstTokenWithColor, hn, hcc, hm]
            · rw [if_neg hcond]
              cases hm : List.lookup c m <;> simp [firstTokenWithColor, hn, hcc, hm]

/-- C2: the Scope-Color Index records the first rule for each normalized
color (first occurrence wins); on the two-rule example sharing color f00 the
lookup of the normalized color yields the first token a; and when no entry
exists the emitted token carries the empty scope string. -/
theorem scopeColorIndex_first_wins :
    (∀ (rules : List MonacoRule) (c : String), c ≠ "" →
        findScopeByColor (buildColorToScopeMap rules []) c = firstTokenWithColor rules c) ∧
    (∀ (colorMap : List String) (rules : List MonacoRule) (startIndex metadata : Nat),
        findScopeByColor (buildColorToScopeMap rules [])
            (normalizeColorStr (colorMap.getD (getForeground metadata) "")) = none →
        emitTokens colorMap (buildColorToScopeMap rules []) [startIndex, metadata] =
          [{ startIndex := startIndex, scopes := "" }]) ∧
    findScopeByColor (buildColorToScopeMap [⟨"a", some "f00"⟩, ⟨"b", some "f00"⟩] [])
        (normalizeColorStr "f00") = some "a" := by
  refine ⟨?_, ?_, by decide⟩
  · intro rules c hc
    have h := buildColorToScopeMap_lookup rules [] c hc
    simpa [findScopeByColor] using h
  · intro colorMap rules startIndex metadata hnone
    simp only [emitTokens]
    rw [hnone]
    rfl

theorem scopeColorIndex_first_wins_witness :
    findScopeByColor (buildColorToScopeMap [⟨"b", some "0f0"⟩] []) "00ff00" =
      firstTokenWithColor [⟨"b", some "0f0"⟩] "00ff00" :=
  scopeColorIndex_first_wins.1 [⟨"b", some "0f0"⟩] "00ff00" (by decide)

end ShikiMonaco

namespace ShikiMonaco

/-- Strip one leading marker character, the literal words of the spec
contract, for comparison with the source behavior. -/
def stripLeadingHash : List Char → List Char
  | [] => []
  | c :: cs => if c = '#' then cs else c :: cs

/-- Color Normalizer as worded by the spec: absent stays absent; otherwise
strip any leading marker, lowercase, and expand a 3- or 4-character short
form by duplication.  Used only to compare the spec wording with the source
function normalizeColorStr. -/
def normalizeColorSpecStr (color : String) : String :=
  if color = "" then color
  else String.mk (expand34 ((stripLeadingHash color.data).map Char.toLower))

theorem replaceFirstHash_of_not_mem (l : List Char) (h : '#' ∉ l) :
    replaceFirstHash l = l := by
  induction l with
  | nil => rfl
  | cons c cs ih =>
      unfold replaceFirstHash
      rw [if_neg (by intro hc; subst hc; exact h (List.mem_cons_self _ _))]
      rw [ih (fun hm => h (List.mem_cons_of_mem c hm))]

theorem map_toLower_of_lower (l : List Char) (h : ∀ c ∈ l, Char.toLower c = c) :
    l.map Char.toLower = l := by
  induction l with
  | nil => rfl
  | cons c cs ih =>
      rw [List.map_cons, h c (List.mem_cons_self c cs),
        ih (fun x hx => h x (List.mem_cons_of_mem c hx))]

/-- C4 counterexample: on the input a#bc, which has a marker character in a
non-leading position, the source function removes that occurrence (yielding
aabbcc through length-3 expansion), while stripping only a leading marker as
the claim describes yields aa##bbcc through length-4 expansion. -/
theorem normalizeColor_nonleading_marker_cex :
    normalizeColor (some "a#bc") = some "aabbcc" ∧
    normalizeColorSpecStr "a#bc" = "aa##bbcc" ∧
    normalizeColorStr "a#bc" ≠ normalizeColorSpecStr "a#bc" := by
  decide

/-- C4 amended: the Color Normalizer is idempotent on strings in normalized
form (lowercase, marker-free, length other than 3 and 4); normalizing #FFF
yields the same result as normalizing ffffff; normalizing an absent value
yields the absent value; and for every present string whose marker, if any,
occurs only at the front, the result agrees with stripping the leading
marker, lowercasing, and expanding the 3- or 4-character short forms by
digit duplication. -/
theorem normalizeColor_contract :
    (∀ s : String, (∀ c ∈ s.data, c ≠ '#' ∧ Char.toLower c = c) →
        s.data.length ≠ 3 → s.data.length ≠ 4 → normalizeColorStr s = s) ∧
    normalizeColor (some "#FFF") = normalizeColor (some "ffffff") ∧
    normalizeColor none = none ∧
    (∀ cs : List Char, '#' ∉ cs →
        normalizeColorStr (String.mk ('#' :: cs)) = normalizeColorSpecStr (String.mk ('#' :: cs)) ∧
        normalizeColorStr (String.mk cs) = normalizeColorSpecStr (String.mk cs)) := by
  refine ⟨?_, by decide, rfl, ?_⟩
  · intro s h h3 h4
    unfold normalizeColorStr
    by_cases hs : s = ""
    · rw [if_pos hs]
    · rw [if_neg hs]
      rw [replaceFirstHash_of_not_mem _ (fun hm => (h _ hm).1 rfl)]
      rw [map_toLower_of_lower _ (fun c hc => (h c hc).2)]
      unfold expand34
      rw [if_neg (by push_neg; exact ⟨h3, h4⟩)]
  · intro cs hmem
    constructor
    · have hne : String.mk ('#' :: cs) ≠ "" := by
        intro h
        exact List.cons_ne_nil '#' cs (congrArg String.data h)
      unfold normalizeColorStr normalizeColorSpecStr
      rw [if_neg hne, if_neg hne]
      have h1 : replaceFirstHash (String.mk ('#' :: cs)).data = cs := by
        show replaceFirstHash ('#' :: cs) = cs
        unfold replaceFirstHash
        rw [if_pos rfl]
      have h2 : stripLeadingHash (String.mk ('#' :: cs)).data = cs := by
        show stripLeadingHash ('#' :: cs) = cs
        simp [stripLeadingHash]
      rw [h1, h2]
    · cases cs with
      | nil => rfl
      | cons c cs2 =>
          have hne : String.mk (c :: cs2) ≠ "" := by
            intro h
            exact List.cons_ne_nil c cs2 (congrArg String.data h)
          have hch : c ≠ '#' := by
            intro h
            subst h
            exact hmem (List.mem_cons_self _ _)
          unfold normalizeColorStr normalizeColorSpecStr
          rw [if_neg hne, if_neg hne]
          have h1 : replaceFirstHash (String.mk (c :: cs2)).data = c :: cs2 := by
            show replaceFirstHash (c :: cs2) = c :: cs2
            unfold replaceFirstHash
            rw [if_neg hch]
            rw [replaceFirstHash_of_not_mem cs2
              (fun hm => hmem (List.mem_cons_of_mem c hm))]
          have h2 : stripLeadingHash (String.mk (c :: cs2)).data = c :: cs2 := by
            show stripLeadingHash (c :: cs2) = c :: cs2
            simp [stripLeadingHash, hch]
          rw [h1, h2]

theorem normalizeColor_contract_witness :
    normalizeColorStr "ff0000" = "ff0000" ∧
    normalizeColorStr (String.mk ('#' :: ['a', 'b', 'c'])) =
      normalizeColorSpecStr (String.mk ('#' :: ['a', 'b', 'c'])) :=
  ⟨normalizeColor_contract.1 "ff0000" (by decide) (by decide) (by decide),
   (normalizeColor_contract.2.2.2 ['a', 'b', 'c'] (by decide)).1⟩

end ShikiMonaco

namespace ShikiMonaco

/-- C3: the intercepted theme selection with identifier dark emits the host
delegation first and the recording second, leaves dark as the current theme,
and the next tokenize call (below the ceiling) resolves its scopes through
the rule table registered for dark, with no dependence on the previously
active theme. -/
theorem setTheme_then_tokenize (bs : BridgeState) (hl : Highlighter) (engineTheme : String)
    (freshId : Nat) (line : String) (state : TokenizerState) (theme : MonacoTheme)
    (hfound : List.lookup "dark" bs.themeMap = some theme)
    (hlen : ¬ tokenizeMaxLineLength ≤ line.length) :
    (setThemeWrapped "dark" bs).2 = [Event.hostSetTheme "dark", Event.recordTheme "dark"] ∧
    (setThemeWrapped "dark" bs).1.currentTheme = "dark" ∧
    (tokenize (setThemeWrapped "dark" bs).1 hl engineTheme freshId line state).1 =
      Except.ok
        { endState := { objId := freshId,
                        ruleStack := (hl.tokenizeLine2 line state.ruleStack
                                        tokenizeTimeLimit).ruleStack,
                        highlighterId := state.highlighterId },
          tokens := emitTokens (hl.colorMapOf "dark") (buildColorToScopeMap theme.rules [])
                      (hl.tokenizeLine2 line state.ruleStack tokenizeTimeLimit).tokens } := by
  refine ⟨rfl, rfl, ?_⟩
  rw [tokenize_short_eq _ _ _ _ _ _ hlen]
  dsimp only [setThemeWrapped]
  rw [hfound]

theorem setTheme_then_tokenize_witness :
    (tokenize (setThemeWrapped "dark" bs0).1 hl0 "t" 5 "x" st0).1 =
      Except.ok
        { endState := { objId := 5,
                        ruleStack := (hl0.tokenizeLine2 "x" st0.ruleStack
                                        tokenizeTimeLimit).ruleStack,
                        highlighterId := st0.highlighterId },
          tokens := emitTokens (hl0.colorMapOf "dark") (buildColorToScopeMap themeDark.rules [])
                      (hl0.tokenizeLine2 "x" st0.ruleStack tokenizeTimeLimit).tokens } :=
  (setTheme_then_tokenize bs0 hl0 "t" 5 "x" st0 themeDark (by decide) (by decide)).2.2

/-- C5: when the grammar interpreter reports an early stop, tokenize still
succeeds with a token list and a freshly constructed end state wrapping the
returned stack handle, and the diagnostic warning is emitted in the trace. -/
theorem tokenize_stopped_early_resilient (bs : BridgeState) (hl : Highlighter)
    (engineTheme : String) (freshId : Nat) (line : String) (state : TokenizerState)
    (theme : MonacoTheme)
    (hfound : List.lookup bs.currentTheme bs.themeMap = some theme)
    (hlen : ¬ tokenizeMaxLineLength ≤ line.length)
    (hstop : (hl.tokenizeLine2 line state.ruleStack tokenizeTimeLimit).stoppedEarly = true) :
    (∃ tokens : List Token,
        (tokenize bs hl engineTheme freshId line state).1 =
          Except.ok
            { endState := { objId := freshId,
                            ruleStack := (hl.tokenizeLine2 line state.ruleStack
                                            tokenizeTimeLimit).ruleStack,
                            highlighterId := state.highlighterId },
              tokens := tokens }) ∧
    Event.warnTimeLimit (line.take 100) ∈
      (tokenize bs hl engineTheme freshId line state).2.2 := by
  rw [tokenize_short_eq _ _ _ _ _ _ hlen, hfound]
  constructor
  · exact ⟨_, rfl⟩
  · simp [hstop]

theorem tokenize_stopped_early_resilient_witness :
    (∃ tokens : List Token,
        (tokenize bs0 hlStop "t" 1 "x" st0).1 =
          Except.ok
            { endState := { objId := 1,
                            ruleStack := (hlStop.tokenizeLine2 "x" st0.ruleStack
                                            tokenizeTimeLimit).ruleStack,
                            highlighterId := st0.highlighterId },
              tokens := tokens }) ∧
    Event.warnTimeLimit (String.take "x" 100) ∈ (tokenize bs0 hlStop "t" 1 "x" st0).2.2 :=
  tokenize_stopped_early_resilient bs0 hlStop "t" 1 "x" st0 theme0
    (by decide) (by decide) (by decide)

/-- C6 counterexample: two consecutive tokenize calls under the same theme
activation (current theme t throughout, no theme switch in between) both
emit the index-construction event, so the Scope-Color Index is not built at
most once per theme activation. -/
theorem scopeColorIndex_rebuilt_cex :
    Event.buildIndex "t" ∈ (tokenize bs0 hl0 "t" 1 "x" st0).2.2 ∧
    Event.buildIndex "t" ∈ (tokenize bs0 hl0 "t" 2 "y" ⟨1, 1, 0⟩).2.2 := by
  decide

/-- C6 amended: the Scope-Color Index is not cached at all; it is rebuilt
from the rule table of the currently active theme on every tokenize call
below the length ceiling whose active theme is registered, including
consecutive calls with the theme unchanged. -/
theorem scopeColorIndex_built_every_call (bs : BridgeState) (hl : Highlighter)
    (engineTheme : String) (freshId : Nat) (line : String) (state : TokenizerState)
    (theme : MonacoTheme)
    (hfound : List.lookup bs.currentTheme bs.themeMap = some theme)
    (hlen : ¬ tokenizeMaxLineLength ≤ line.length) :
    Event.buildIndex bs.currentTheme ∈ (tokenize bs hl engineTheme freshId line state).2.2 := by
  rw [tokenize_short_eq _ _ _ _ _ _ hlen, hfound]
  cases hstop : (hl.tokenizeLine2 line state.ruleStack tokenizeTimeLimit).stoppedEarly <;>
    simp [hstop]

theorem scopeColorIndex_built_every_call_witness :
    Event.buildIndex bs0.currentTheme ∈ (tokenize bs0 hl0 "t" 3 "z" st0).2.2 :=
  scopeColorIndex_built_every_call bs0 hl0 "t" 3 "z" st0 theme0 (by decide) (by decide)

/-- A bridge state whose current theme identifier has no registered
host-form theme. -/
def bsMissing : BridgeState := { themeMap := [("t", theme0)], currentTheme := "other" }

/-- C7 counterexample: a tokenize call below the ceiling whose active theme
identifier has no registered host-form theme raises a TypeError (reading the
rules field of undefined) instead of degrading. -/
theorem tokenize_unregistered_theme_throws_cex :
    (tokenize bsMissing hl0 "t" 1 "x" st0).1 =
      Except.error "TypeError: theme is undefined" := by
  rfl

/-- C7 amended: theme conversion succeeds exactly when the source theme
carries a rules field or one of the settings lists (entries with missing
foregrounds or empty scopes are skipped, not fatal), while tokenize below
the length ceiling succeeds exactly when the active theme identifier has a
registered host-form theme, and raises a TypeError otherwise. -/
theorem bridge_failure_characterization :
    (∀ t : SourceTheme,
        isOkB (textmateThemeToMonacoTheme t) = (t.rules.isSome || (pickSettings t).isSome)) ∧
    (∀ (bs : BridgeState) (hl : Highlighter) (engineTheme : String) (freshId : Nat)
        (line : String) (state : TokenizerState),
        ¬ tokenizeMaxLineLength ≤ line.length →
        isOkB (tokenize bs hl engineTheme freshId line state).1 =
          (List.lookup bs.currentTheme bs.themeMap).isSome) := by
  constructor
  · intro t
    unfold textmateThemeToMonacoTheme
    cases hr : t.rules with
    | some rs => simp [isOkB]
    | none =>
        cases hp : pickSettings t with
        | none => simp [isOkB, hp]
        | some l => simp [isOkB, hp]
  · intro bs hl engineTheme freshId line state hlen
    rw [tokenize_short_eq _ _ _ _ _ _ hlen]
    cases hthm : List.lookup bs.currentTheme bs.themeMap with
    | none =>
        cases hstop : (hl.tokenizeLine2 line state.ruleStack tokenizeTimeLimit).stoppedEarly <;>
          simp [isOkB, hstop]
    | some theme =>
        cases hstop : (hl.tokenizeLine2 line state.ruleStack tokenizeTimeLimit).stoppedEarly <;>
          simp [isOkB, hstop]

theorem bridge_failure_characterization_witness :
    isOkB (tokenize bsMissing hl0 "t" 1 "x" st0).1 =
      (List.lookup bsMissing.currentTheme bsMissing.themeMap).isSome :=
  bridge_failure_characterization.2 bsMissing hl0 "t" 1 "x" st0 (by decide)

end ShikiMonaco
